import Mathlib

set_option maxRecDepth 100000

/-!
Verification of the HoloViz documentation indexer core.

Shallow embedding of `src/holoviz_mcp/docs_mcp/data.py` (path→URL conversion,
duplicate-id validation, index rebuild, semantic search, reference-guide
lookup, exact page lookup, project listing) together with spec-modelled
definitions for the chunker and the backup/restore rebuild flow, whose
implementation module is absent from the source tree (only its tests remain).

The external collaborators (ChromaDB vector store, embedding model, git) are
modelled as follows: the persistent collection is a list of entries; a vector
similarity query returns the entries matching the metadata filter, in store
order (the black-box similarity ranking is abstracted as the stable store
order), truncated to `n_results`; distances are an abstract assignment.
-/

namespace HoloViz

/-- A single-quote character, used inside error-message strings. -/
def sq : String := String.singleton (Char.ofNat 39)

/-! ## Text transform utilities: `convert_path_to_url`

Python model notes: `pathlib.PurePath.suffix` returns `name[i:]` where
`i = name.rfind(".")` when `0 < i < len(name) - 1`, else the empty string;
`with_suffix(".html")` replaces that suffix.  A `Path` is modelled by its
`parts` tuple (a list of non-empty segments without separators), and
`str(Path(*parts))` is the `/`-join of the parts. -/

/-- Characters of the final segment after the last dot (empty if the segment
ends in a dot or has no dot). -/
def afterLastDot (s : List Char) : List Char :=
  (s.reverse.takeWhile (fun c => c ≠ '.')).reverse

/-- Python `PurePath.suffix` on a single path segment. -/
def pySuffix (s : List Char) : List Char :=
  if s.contains '.' then
    let aft := afterLastDot s
    if s.length - aft.length - 1 > 0 ∧ aft.length > 0 then '.' :: aft else []
  else []

/-- Python `PurePath.with_suffix` on a single path segment: drop the suffix
returned by `pySuffix` and append the new suffix. -/
def pyWithSuffix (s newSuffix : List Char) : List Char :=
  s.take (s.length - (pySuffix s).length) ++ newSuffix

/-- The documentation file extensions recognised by `convert_path_to_url`. -/
def docSuffixes : List (List Char) :=
  [".md".toList, ".ipynb".toList, ".rst".toList, ".txt".toList]

/-- Embedding of `convert_path_to_url(path, remove_first_part)`
(`docs_mcp/data.py:128-169`).  The input path is given by its list of
segments (`path.parts`). -/
def convert_path_to_url (parts : List String) (remove_first_part : Bool) : String :=
  let ps := if remove_first_part then parts.tail else parts
  match ps.getLast? with
  | none => ""
  | some name =>
      let nl := name.toList
      let newName :=
        if docSuffixes.contains (pySuffix nl) then String.mk (pyWithSuffix nl ".html".toList)
        else name
      String.intercalate "/" (ps.dropLast ++ [newName])

/-! ## Data model

`process_file` emits one record per ingested file; `index_documentation`
stores each record in the collection keyed by its `id`, with the remaining
fields as the document text and the metadata record
(`docs_mcp/data.py:620-639`).  A store entry therefore carries exactly the
fields of the ingestion record. -/

/-- One ingested document record / one persisted collection entry:
`id`, document text (`content`) and the metadata fields written by
`index_documentation`. -/
structure DocRecord where
  id : String
  title : String
  url : String
  project : String
  path : String
  path_stem : String
  description : String
  is_reference : Bool
  content : String
deriving DecidableEq, Repr

/-- Errors surfaced by the indexer: `Exception` raised by `log_exception`
when no context is given, and `ValueError` raised directly. -/
inductive Err where
  | exception (msg : String)
  | valueError (msg : String)
deriving DecidableEq, Repr

/-- The result record returned by the search/lookup operations
(`docs_mcp/models.py`, class `Page`). -/
structure Page where
  title : String
  url : String
  project : String
  path : String
  description : String
  is_reference : Bool
  content : Option String
  relevance_score : Option ℚ
deriving DecidableEq, Repr

/-- The defensive URL fallback used when building a `Page`: empty or
literal-None metadata is replaced by a placeholder URL. -/
def safeUrl (u : String) : String :=
  if u = "" ∨ u = "None" then "https://example.com" else u

/-- Replace every occurrence of one character by a replacement string
(character-level model of Python `str.replace` with a one-character
pattern). -/
def replaceChars (a : Char) (repl : List Char) : List Char → List Char
  | [] => []
  | c :: rest => (if c = a then repl else [c]) ++ replaceChars a repl rest

/-- Python `str.replace(old, new)` for a one-character `old`. -/
def pyReplace (s : String) (a : Char) (repl : String) : String :=
  String.mk (replaceChars a repl.toList s.toList)

/-- Embedding of `_generate_doc_id` (`docs_mcp/data.py:325-330`):
`path.replace("/", "___").replace(".", "_")` prefixed by the project. -/
def generate_doc_id (project : String) (path : String) : String :=
  project ++ "___" ++ pyReplace (pyReplace path '/' "___") '.' "_"

/-! ## Vector store model

The ChromaDB collection is a list of entries.  `collection.query` with a
metadata `where` filter returns the matching entries (similarity ranking is
abstracted as stable store order) truncated to `n_results`; similarity
distances are an abstract assignment passed in as a function. -/

/-- The `where` clause used by `search_pages`: optional project filter. -/
def whereSearch (projectFilter : Option String) (e : DocRecord) : Bool :=
  match projectFilter with
  | none => true
  | some p => e.project == p

/-- The `where` clause used by `search_get_reference_guide`: conjunction of
optional project filter, exact `path_stem` match and `is_reference = true`. -/
def whereRefGuide (component : String) (projectFilter : Option String) (e : DocRecord) : Bool :=
  (match projectFilter with
   | none => true
   | some p => e.project == p) && e.path_stem == component && e.is_reference

/-- The `where` clause used by `get_page`: exact project and path match. -/
def whereGetPage (project : String) (path : String) (e : DocRecord) : Bool :=
  e.project == project && e.path == path

/-- Model of `collection.query(..., n_results, where)`: entries matching the
filter, in store order, truncated to `n_results`. -/
def queryStore (store : List DocRecord) (cond : DocRecord → Bool) (nResults : Nat) :
    List DocRecord :=
  (store.filter cond).take nResults

/-! ## Duplicate-id validation and full reindex

`_validate_unique_ids` (`docs_mcp/data.py:648-677`) is called from
`index_documentation` with no context, so `log_warning` only logs while
`log_exception` logs and immediately raises `Exception(message)`: the
per-pair warnings are emitted during the scan, and the first `log_exception`
call — the one carrying only the duplicate count — aborts the run before the
per-pair `log_exception` loop and the final `ValueError` are reached. -/

/-- The scan of `_validate_unique_ids`: walks the batch with the `seen_ids`
association (id ↦ first document), returning the warning messages emitted
and the number of duplicate occurrences found. -/
def dupScan : List (String × DocRecord) → List DocRecord → List String × Nat
  | _, [] => ([], 0)
  | seen, d :: rest =>
    match seen.lookup d.id with
    | some firstDoc =>
        let tailScan := dupScan seen rest
        (("DUPLICATE ID FOUND: " ++ d.id)
          :: ("  First document: " ++ firstDoc.project ++ "/" ++ firstDoc.path ++ " - " ++ firstDoc.title)
          :: ("  Duplicate document: " ++ d.project ++ "/" ++ d.path ++ " - " ++ d.title)
          :: tailScan.1, tailScan.2 + 1)
    | none => dupScan ((d.id, d) :: seen) rest

/-- The `seen_ids` association after scanning a batch from a given start. -/
def seenAfter (seen : List (String × DocRecord)) : List DocRecord → List (String × DocRecord)
  | [] => seen
  | d :: rest =>
    match seen.lookup d.id with
    | some _ => seenAfter seen rest
    | none => seenAfter ((d.id, d) :: seen) rest

/-- Embedding of `_validate_unique_ids` (`docs_mcp/data.py:648-677`) as
called with no context: warnings plus the error raised when duplicates were
found.  The raised message carries only the count. -/
def validate_unique_ids (docs : List DocRecord) : List String × Option Err :=
  if (dupScan [] docs).2 > 0 then
    ((dupScan [] docs).1,
      some (.exception ("Found " ++ toString (dupScan [] docs).2 ++ " duplicate document IDs")))
  else ((dupScan [] docs).1, none)

/-- Embedding of `index_documentation` (`docs_mcp/data.py:572-646`) from the
point where the ingested batch is assembled: empty batch returns leaving the
store unchanged; a duplicate id aborts before any store mutation; otherwise
the collection is cleared and all records added, so the new store is exactly
the batch.  Returns (logged warnings, store afterwards, error raised). -/
def index_documentation_core (store : List DocRecord) (all_docs : List DocRecord) :
    List String × List DocRecord × Option Err :=
  if all_docs.isEmpty then (["No documentation found to index"], store, none)
  else
    match (validate_unique_ids all_docs).2 with
    | some e => ((validate_unique_ids all_docs).1, store, some e)
    | none => ((validate_unique_ids all_docs).1, all_docs, none)

/-- Indexer state: the persisted collection plus the batch of document
records that a (re)ingestion run would assemble from the configured
repositories. -/
structure Indexer where
  store : List DocRecord
  batch : List DocRecord
deriving Repr

/-- Embedding of `is_indexed` (`docs_mcp/data.py:247-253`). -/
def is_indexed (ix : Indexer) : Bool :=
  ix.store.length > 0

/-- Embedding of `ensure_indexed` (`docs_mcp/data.py:255-259`): rebuild on
demand when the store is empty; errors raised by the rebuild propagate. -/
def ensure_indexed (ix : Indexer) : Except Err Indexer :=
  if is_indexed ix then .ok ix
  else
    match index_documentation_core ix.store ix.batch with
    | (_, st, none) => .ok { ix with store := st }
    | (_, _, some e) => .error e

/-! ## Search / retrieval operations -/

/-- The `Page` built for one query hit by `search_pages`
(`docs_mcp/data.py:739-777`). -/
def mkSearchPage (includeContent : Bool) (dist : DocRecord → Option ℚ) (e : DocRecord) : Page :=
  { title := e.title, url := safeUrl e.url, project := e.project, path := e.path,
    description := e.description, is_reference := e.is_reference,
    content := if includeContent then some e.content else none,
    relevance_score := (dist e).map (fun d => 1 - d) }

/-- Embedding of `search_pages` (`docs_mcp/data.py:728-782`).
`ensure_indexed` runs before the `try` block; inside the block, a raising
vector-store query (modelled by the `queryRaises` oracle) is caught and the
empty list returned. -/
def search_pages (ix : Indexer) (queryRaises : Bool) (_query : String)
    (projectFilter : Option String) (includeContent : Bool) (max_results : Nat)
    (dist : DocRecord → Option ℚ) : Except Err (List Page) :=
  match ensure_indexed ix with
  | .error e => .error e
  | .ok ix1 =>
    if queryRaises then .ok []
    else
      .ok ((queryStore ix1.store (whereSearch projectFilter) max_results).map
        (mkSearchPage includeContent dist))

/-- The `Page` built for one hit by `search_get_reference_guide`, carrying
the fixed maximal relevance score `1.0`. -/
def refGuidePage (includeContent : Bool) (e : DocRecord) : Page :=
  { title := e.title, url := safeUrl e.url, project := e.project, path := e.path,
    description := e.description, is_reference := e.is_reference,
    content := if includeContent then some e.content else none,
    relevance_score := some 1 }

/-- The result-assembly loop of `search_get_reference_guide`
(`docs_mcp/data.py:694-726`), including the defensive project / path-stem
re-checks, which raise through `log_exception` when no context is given. -/
def buildRefPages (component : String) (projectFilter : Option String)
    (includeContent : Bool) : List DocRecord → Except Err (List Page)
  | [] => .ok []
  | e :: rest =>
    let page := refGuidePage includeContent e
    match projectFilter with
    | some p =>
      if page.project ≠ p then
        .error (.exception ("Project mismatch for component " ++ sq ++ component ++ sq
          ++ ": expected " ++ sq ++ p ++ sq ++ ", got " ++ sq ++ page.project ++ sq))
      else if e.path_stem ≠ component then
        .error (.exception ("Path stem mismatch for component " ++ sq ++ component ++ sq
          ++ ": expected " ++ sq ++ component ++ sq ++ ", got " ++ sq ++ e.path_stem ++ sq))
      else (buildRefPages component projectFilter includeContent rest).map (page :: ·)
    | none =>
      if e.path_stem ≠ component then
        .error (.exception ("Path stem mismatch for component " ++ sq ++ component ++ sq
          ++ ": expected " ++ sq ++ component ++ sq ++ ", got " ++ sq ++ e.path_stem ++ sq))
      else (buildRefPages component projectFilter includeContent rest).map (page :: ·)

/-- Embedding of `search_get_reference_guide` (`docs_mcp/data.py:679-726`):
server-side filter on optional project, exact `path_stem` and
`is_reference`, requesting up to 1000 results. -/
def search_get_reference_guide (ix : Indexer) (component : String)
    (projectFilter : Option String) (includeContent : Bool) : Except Err (List Page) :=
  match ensure_indexed ix with
  | .error e => .error e
  | .ok ix1 =>
    buildRefPages component projectFilter includeContent
      (queryStore ix1.store (whereRefGuide component projectFilter) 1000)

/-- The `Page` built by `get_page` for one hit (content always included). -/
def getPagePage (dist : DocRecord → Option ℚ) (e : DocRecord) : Page :=
  { title := e.title, url := safeUrl e.url, project := e.project, path := e.path,
    description := e.description, is_reference := e.is_reference,
    content := some e.content,
    relevance_score := (dist e).map (fun d => 1 - d) }

/-- The not-found error message of `get_page`. -/
def noPageMsg (path : String) (project : String) : String :=
  "No page found for path " ++ sq ++ path ++ sq ++ " in project " ++ sq ++ project ++ sq ++ "."

/-- The ambiguous-match error message of `get_page`. -/
def multiPageMsg (path : String) (project : String) : String :=
  "Multiple pages found for path " ++ sq ++ path ++ sq ++ " in project " ++ sq ++ project
    ++ sq ++ ". Please ensure unique paths."

/-- The result selection of `get_page`: more than one hit raises the
ambiguous-match `ValueError`, zero hits the not-found `ValueError`,
otherwise the single page is returned. -/
def getPageFrom (path : String) (project : String) : List Page → Except Err Page
  | [] => .error (.valueError (noPageMsg path project))
  | [p] => .ok p
  | _ :: _ :: _ => .error (.valueError (multiPageMsg path project))

/-- Embedding of `get_page` (`docs_mcp/data.py:784-839`): exact
(project, path) filter with `n_results=3`, then result selection. -/
def get_page (ix : Indexer) (path : String) (project : String)
    (dist : DocRecord → Option ℚ) : Except Err Page :=
  match ensure_indexed ix with
  | .error e => .error e
  | .ok ix1 =>
    getPageFrom path project
      ((queryStore ix1.store (whereGetPage project path) 3).map (getPagePage dist))

/-- The project list assembled by `list_projects`
(`docs_mcp/data.py:850-868`): non-empty `project` metadata values with
underscores replaced by hyphens, deduplicated (Python `set`), sorted. -/
def projectNames (store : List DocRecord) : List String :=
  ((store.filterMap
      (fun e => if e.project = "" then none else some (pyReplace e.project '_' "-"))).dedup).insertionSort
    (· ≤ ·)

/-- Embedding of `list_projects` (`docs_mcp/data.py:841-872`). -/
def list_projects (ix : Indexer) : Except Err (List String) :=
  match ensure_indexed ix with
  | .error e => .error e
  | .ok ix1 => .ok (projectNames ix1.store)

/-! ## Repository ingestion loop -/

/-- Embedding of `clone_or_update_repo` (`docs_mcp/data.py:261-294`): the
underlying git clone/pull is a black-box oracle; any failure is caught,
logged as a warning and turned into `none` — it is never re-raised.  The
local path is identified with the repository name. -/
def clone_or_update_repo (cloneResult : String → Except String String)
    (repo_name : String) : List String × Option String :=
  match cloneResult repo_name with
  | .ok p => ([], some p)
  | .error e => (["Failed to clone/update " ++ repo_name ++ ": " ++ e], none)

/-- The clone-and-extract loop of `index_documentation`
(`docs_mcp/data.py:578-587`): repositories whose clone fails contribute no
documents but do not stop the loop. -/
def gather_docs (cloneResult : String → Except String String)
    (extract : String → List DocRecord) : List String → List String × List DocRecord
  | [] => ([], [])
  | r :: rest =>
    ((clone_or_update_repo cloneResult r).1 ++ (gather_docs cloneResult extract rest).1,
      (match (clone_or_update_repo cloneResult r).2 with
       | some p => extract p
       | none => []) ++ (gather_docs cloneResult extract rest).2)

/-- Embedding of the whole `index_documentation` run
(`docs_mcp/data.py:572-646`): gather documents over the configured
repositories, then rebuild the collection from the batch. -/
def index_documentation (cloneResult : String → Except String String)
    (extract : String → List DocRecord) (repos : List String)
    (store : List DocRecord) : List String × List DocRecord × Option Err :=
  let gathered := gather_docs cloneResult extract repos
  let core := index_documentation_core store gathered.2
  (gathered.1 ++ core.1, core.2)

/-! ## Spec-modelled chunker and backup/restore rebuild

The repository's current indexer module (imported by the test suite as
`holoviz_mcp.holoviz_mcp.data`, exercised by `tests/docs_mcp/test_data.py`)
implements `chunk_document`, `_backup_path` and `_restore_from_backup`, but
that module is not part of the provided source tree — only its tests are.
The definitions below are modelled from the spec (§4.2 Chunker and §4.4
Vector Index Manager). -/

/-- Metadata carried by a Document and copied verbatim into each chunk. -/
structure DocMeta where
  title : String
  url : String
  project : String
  source_path : String
  source_path_stem : String
  source_url : String
  description : String
  is_reference : Bool
deriving DecidableEq, Repr

/-- A Document as consumed by the chunker: stable id, metadata, normalized
content. -/
structure SpecDocument where
  id : String
  meta : DocMeta
  content : String
deriving DecidableEq, Repr

/-- A chunk: the retrievable unit derived from one Document. -/
structure Chunk where
  id : String
  parent_id : String
  chunk_index : Nat
  content : String
  raw_content : String
  meta : DocMeta
deriving DecidableEq, Repr

/-- The triple-backtick code-fence marker. -/
def fenceMarker : String :=
  String.mk [Char.ofNat 96, Char.ofNat 96, Char.ofNat 96]

/-- `String.startsWith`, computed on the character lists. -/
def strStarts (s pre : String) : Bool :=
  pre.toList.isPrefixOf s.toList

/-- Split on newline characters (Python `str.split("\n")`), on character
lists: the empty text gives one empty line. -/
def splitLinesChar : List Char → List (List Char)
  | [] => [[]]
  | c :: rest =>
    match splitLinesChar rest with
    | [] => [[c]]
    | l :: ls => if c = '\n' then [] :: l :: ls else (c :: l) :: ls

/-- Python `content.split("\n")`. -/
def pySplitLines (s : String) : List String :=
  (splitLinesChar s.toList).map String.mk

/-- Modelled from the spec: a fence toggle line (the fence state flips on
each line starting with a triple backtick). -/
def isFenceLine (l : String) : Bool :=
  strStarts l fenceMarker

/-- Modelled from the spec: a markdown heading of level 1 or 2 at line
start. -/
def isHeadingLine (l : String) : Bool :=
  strStarts l "# " || strStarts l "## "

/-- Modelled from the spec: the section scan of `chunk_document` (absent
from the source tree).  Walks the lines tracking the fence state; a level-1/2
heading outside a fence starts a new section; `cur` holds the current
section's lines in reverse. -/
def splitSectionsAux (fence : Bool) (cur : List String) : List String → List (List String)
  | [] => [cur.reverse]
  | l :: rest =>
    if !fence && isHeadingLine l then
      cur.reverse :: splitSectionsAux false [l] rest
    else
      splitSectionsAux (if isFenceLine l then !fence else fence) (l :: cur) rest

/-- Modelled from the spec: split a document content into sections (the
first section is the preamble, possibly empty). -/
def sectionsOf (content : String) : List (List String) :=
  splitSectionsAux false [] (pySplitLines content)

/-- Whether any line is a level-1/2 heading outside a fenced code block,
scanning with the same fence discipline as `splitSectionsAux`. -/
def hasHeadingOutsideFence (fence : Bool) : List String → Bool
  | [] => false
  | l :: rest =>
    (!fence && isHeadingLine l)
      || hasHeadingOutsideFence (if isFenceLine l then !fence else fence) rest

/-- Build the chunk for one section: title-prefixed content, id
`parent_id___chunk_index`, full metadata copy. -/
def chunkFromSection (d : SpecDocument) (idx : Nat) (raw : String) : Chunk :=
  { id := d.id ++ "___chunk_" ++ toString idx, parent_id := d.id, chunk_index := idx,
    content := d.meta.title ++ "\n\n" ++ raw, raw_content := raw, meta := d.meta }

/-- Build the chunks from the kept sections: when every section was dropped,
one chunk holding the full original content; otherwise one chunk per kept
section, renumbered contiguously from 0. -/
def chunksFromKept (d : SpecDocument) : List String → List Chunk
  | [] => [chunkFromSection d 0 d.content]
  | k :: ks => ((k :: ks).enum).map (fun p => chunkFromSection d p.1 p.2)

/-- Modelled from the spec: `chunkDocument(document, minChunkChars)`
(`chunk_document` in the indexer module absent from the source tree;
exercised by `tests/docs_mcp/test_data.py`).  Sections below the minimum raw
length are dropped; if all sections are dropped, one chunk holding the full
original content is kept; kept chunks are renumbered contiguously from 0. -/
def chunk_document (d : SpecDocument) (min_chunk_chars : Nat) : List Chunk :=
  chunksFromKept d
    (((sectionsOf d.content).map (String.intercalate "\n")).filter
      (fun s => min_chunk_chars ≤ s.length))

/-- Modelled from the spec: the staged entries of a full rebuild — every
document's chunks, with the default minimum chunk size. -/
def stageChunks (docs : List SpecDocument) : List Chunk :=
  docs.flatMap (fun d => chunk_document d 100)

/-- The persistent store layout of the rebuild flow: the live store
directory and the sibling backup copy. -/
structure StoreDirs where
  live : List Chunk
  backup : Option (List Chunk)
deriving DecidableEq, Repr

/-- Outcome of the bulk add: success, or a raise leaving arbitrary leftover
entries (partial write) in the live store. -/
inductive AddOutcome where
  | ok
  | fail (leftover : List Chunk)
deriving DecidableEq, Repr

/-- Modelled from the spec: copy the current store directory to the sibling
backup path, replacing any prior backup. -/
def takeBackup (d : StoreDirs) : StoreDirs :=
  { d with backup := some d.live }

/-- Modelled from the spec: clear the existing collection. -/
def clearLive (d : StoreDirs) : StoreDirs :=
  { d with live := [] }

/-- Modelled from the spec: bulk-add the staged entries; on failure the live
store is left with arbitrary leftover contents and failure is reported. -/
def bulkAdd (staged : List Chunk) (o : AddOutcome) (d : StoreDirs) : StoreDirs × Bool :=
  match o with
  | .ok => ({ d with live := d.live ++ staged }, true)
  | .fail leftover => ({ d with live := leftover }, false)

/-- Modelled from the spec: `_restoreFromBackup()` (absent from the source
tree; exercised by `tests/docs_mcp/test_data.py`) — replace the live store
directory with the backup copy. -/
def restore_from_backup (d : StoreDirs) : StoreDirs :=
  { d with live := d.backup.getD [] }

/-- Modelled from the spec: the store-mutation phase of the full rebuild in
`indexDocumentation()` — backup, clear, bulk-add, and restore-from-backup if
the bulk-add raises. -/
def index_documentation_spec (docs : List SpecDocument) (o : AddOutcome)
    (d : StoreDirs) : StoreDirs :=
  let d1 := takeBackup d
  let d2 := clearLive d1
  let step := bulkAdd (stageChunks docs) o d2
  if step.2 then step.1 else restore_from_backup step.1

/-! ## Store invariant and concrete fixtures -/

/-- A store as produced by a successful `index_documentation` run: entry ids
are pairwise distinct (guaranteed by `_validate_unique_ids`) and each id is
the one derived from the entry's project and path by `_generate_doc_id`. -/
def StoreValid (store : List DocRecord) : Prop :=
  store.Pairwise (fun a b => a.id ≠ b.id) ∧
    ∀ e ∈ store, e.id = generate_doc_id e.project e.path

/-- Fixture: the panel index page record. -/
def recPanelIndex : DocRecord :=
  { id := generate_doc_id "panel" "doc/index.md", title := "Panel",
    url := "https://panel.holoviz.org/index.html", project := "panel",
    path := "doc/index.md", path_stem := "index", description := "Panel docs.",
    is_reference := false, content := "# Panel\n\nPanel docs." }

/-- Fixture: an hvplot page with the same relative path as the panel one. -/
def recHvplotIndex : DocRecord :=
  { id := generate_doc_id "hvplot" "doc/index.md", path := "doc/index.md", title := "hvPlot",
    url := "https://hvplot.holoviz.org/index.html", project := "hvplot",
    path_stem := "index", description := "hvPlot docs.",
    is_reference := false, content := "# hvPlot\n\nhvPlot docs." }

/-- Fixture: a second ingestion record colliding with `recPanelIndex`
(identical project and path, hence identical generated id). -/
def recPanelIndexDup : DocRecord :=
  { recPanelIndex with title := "Panel Copy", description := "Second copy." }

/-- Fixture: a reference-guide record for the Button component. -/
def recButtonRef : DocRecord :=
  { id := generate_doc_id "panel" "examples/reference/widgets/Button.ipynb",
    title := "Button", url := "https://panel.holoviz.org/reference/widgets/Button.html",
    project := "panel", path := "examples/reference/widgets/Button.ipynb",
    path_stem := "Button", description := "Button widget.", is_reference := true,
    content := "# Button\n\nThe Button widget." }

/-- Fixture: a record whose project name contains underscores. -/
def recPmui : DocRecord :=
  { id := generate_doc_id "panel_material_ui" "doc/index.md", title := "Panel Material UI",
    url := "https://panel-material-ui.holoviz.org/index.html", project := "panel_material_ui",
    path := "doc/index.md", path_stem := "index", description := "PMUI docs.",
    is_reference := false, content := "# Panel Material UI" }

/-- Fixture: an indexed store holding the same relative path under two
projects. -/
def ixTwoProjects : Indexer :=
  { store := [recPanelIndex, recHvplotIndex], batch := [] }

/-- Fixture: an empty store whose pending ingestion batch contains an id
collision. -/
def ixDup : Indexer :=
  { store := [], batch := [recPanelIndex, recPanelIndexDup] }

/-- Fixture: an indexed store with one reference guide and one regular
page. -/
def ixRef : Indexer :=
  { store := [recButtonRef, recPanelIndex], batch := [] }

/-- Fixture: an indexed store whose only project name contains
underscores. -/
def ixPmui : Indexer :=
  { store := [recPmui], batch := [] }

/-- Fixture: chunker metadata. -/
def metaFx : DocMeta :=
  { title := "Test Doc", url := "https://example.com/doc.html", project := "test-project",
    source_path := "doc/test.md", source_path_stem := "test",
    source_url := "https://github.com/org/repo/blob/main/doc/test.md",
    description := "A test document.", is_reference := false }

/-- Fixture: a document without level-1/2 headings. -/
def docNoHeadings : SpecDocument :=
  { id := "test___doc_md", meta := metaFx,
    content := "No headers here, just plain text that is long enough to survive filtering." }

/-- Fixture: document content whose only hash-prefixed lines besides two
real headings sit inside a fenced code block. -/
def fencedContent : String :=
  "# Real Header\n\nSome intro text that is long enough to exceed the minimum character threshold for chunking.\n\n"
    ++ fenceMarker
    ++ "python\n# This is a Python comment that should NOT split\nx = 1\n# ====================\n# Another decorative divider in code\ny = 2\n"
    ++ fenceMarker
    ++ "\n\n## Second Header\n\nMore content here that is long enough to exceed the minimum character threshold for chunking."

/-- Fixture: a document containing a fenced code block with hash-comment
lines. -/
def docFenced : SpecDocument :=
  { id := "test___doc_md", meta := metaFx, content := fencedContent }

/-- Fixture: clone oracle failing on exactly one repository. -/
def cloneOracleFx : String → Except String String :=
  fun r => if r = "bad" then .error "boom" else .ok r

/-- Fixture: extraction producing one record per cloned repository. -/
def extractFx : String → List DocRecord :=
  fun p =>
    [{ id := generate_doc_id p "doc/index.md", title := p, url := "https://example.com/index.html",
       project := p, path := "doc/index.md", path_stem := "index", description := "",
       is_reference := false, content := "" }]

/-! ## Helper lemmas -/

/-- The sections always cover the input lines exactly: flattening the
sections reproduces the scanned lines. -/
theorem splitSectionsAux_flatten (ls : List String) :
    ∀ (fence : Bool) (cur : List String),
      (splitSectionsAux fence cur ls).flatten = cur.reverse ++ ls := by
  induction ls with
  | nil => intro fence cur; simp [splitSectionsAux]
  | cons l rest ih =>
      intro fence cur
      unfold splitSectionsAux
      by_cases h : (!fence && isHeadingLine l) = true
      · simp [h, ih]
      · simp [h, ih]

/-- A list whose last element is a heading has a heading at the head of its
reverse. -/
theorem reverse_head_heading (cur : List String) (h0 : String)
    (hlast : cur.getLast? = some h0) (hhead : isHeadingLine h0 = true) :
    ∃ hd tl, cur.reverse = hd :: tl ∧ isHeadingLine hd = true := by
  rcases hrev : cur.reverse with _ | ⟨a, as⟩
  · exfalso
    have h1 := List.head?_reverse cur
    rw [hrev, hlast] at h1
    simp at h1
  · have h1 := List.head?_reverse cur
    rw [hrev, hlast] at h1
    simp at h1
    exact ⟨a, as, rfl, by rw [h1]; exact hhead⟩

/-- If the current section started with a heading line, every section the
scan produces starts with a heading line. -/
theorem splitSectionsAux_all_heading (ls : List String) :
    ∀ (fence : Bool) (cur : List String) (h0 : String),
      cur.getLast? = some h0 → isHeadingLine h0 = true →
      ∀ sec ∈ splitSectionsAux fence cur ls,
        ∃ hd tl, sec = hd :: tl ∧ isHeadingLine hd = true := by
  induction ls with
  | nil =>
      intro fence cur h0 hlast hhead sec hsec
      simp only [splitSectionsAux, List.mem_singleton] at hsec
      subst hsec
      exact reverse_head_heading cur h0 hlast hhead
  | cons l rest ih =>
      intro fence cur h0 hlast hhead sec hsec
      unfold splitSectionsAux at hsec
      by_cases h : (!fence && isHeadingLine l) = true
      · rw [if_pos h] at hsec
        rcases List.mem_cons.mp hsec with hsec1 | hsec1
        · subst hsec1
          exact reverse_head_heading cur h0 hlast hhead
        · exact ih false [l] l rfl
            (by simp only [Bool.and_eq_true] at h; exact h.2) sec hsec1
      · rw [if_neg h] at hsec
        have hlast2 : (l :: cur).getLast? = some h0 := by
          rcases cur with _ | ⟨c, cs⟩
          · simp at hlast
          · rw [List.getLast?_cons_cons]; exact hlast
        exact ih _ (l :: cur) h0 hlast2 hhead sec hsec

/-- Every section after the first one starts with a level-1/2 heading
line: the scan splits only at heading boundaries. -/
theorem splitSectionsAux_tail_heading (ls : List String) :
    ∀ (fence : Bool) (cur : List String),
      ∀ sec ∈ (splitSectionsAux fence cur ls).tail,
        ∃ hd tl, sec = hd :: tl ∧ isHeadingLine hd = true := by
  induction ls with
  | nil => intro fence cur sec hsec; simp [splitSectionsAux] at hsec
  | cons l rest ih =>
      intro fence cur sec hsec
      unfold splitSectionsAux at hsec
      by_cases h : (!fence && isHeadingLine l) = true
      · rw [if_pos h] at hsec
        rw [List.tail_cons] at hsec
        exact splitSectionsAux_all_heading rest false [l] l rfl
          (by simp only [Bool.and_eq_true] at h; exact h.2) sec hsec
      · rw [if_neg h] at hsec
        exact ih _ (l :: cur) sec hsec

/-- Without any level-1/2 heading outside a fence, the scan produces a
single section holding all lines. -/
theorem splitSectionsAux_no_heading (ls : List String) :
    ∀ (fence : Bool) (cur : List String),
      hasHeadingOutsideFence fence ls = false →
      splitSectionsAux fence cur ls = [cur.reverse ++ ls] := by
  induction ls with
  | nil => intro fence cur _; simp [splitSectionsAux]
  | cons l rest ih =>
      intro fence cur hno
      unfold hasHeadingOutsideFence at hno
      simp only [Bool.or_eq_false_iff] at hno
      unfold splitSectionsAux
      simp only [hno.1, if_neg, Bool.false_eq_true, not_false_eq_true]
      rw [ih _ (l :: cur) hno.2]
      simp

/-- Every chunk produced by `chunk_document` carries the parent id, a
verbatim copy of the parent metadata, and the id derived from its own
chunk index. -/
theorem chunksFromKept_fields (d : SpecDocument) :
    ∀ (kept : List String), ∀ c ∈ chunksFromKept d kept,
      c.parent_id = d.id ∧ c.meta = d.meta ∧
        c.id = d.id ++ "___chunk_" ++ toString c.chunk_index ∧
        c.content = d.meta.title ++ "\n\n" ++ c.raw_content := by
  intro kept c hc
  rcases kept with _ | ⟨k, ks⟩
  · simp only [chunksFromKept, List.mem_singleton] at hc
    subst hc
    exact ⟨rfl, rfl, rfl, rfl⟩
  · simp only [chunksFromKept, List.mem_map] at hc
    obtain ⟨p, _, hp⟩ := hc
    subst hp
    exact ⟨rfl, rfl, rfl, rfl⟩

/-- Every chunk produced by `chunk_document` carries the parent id, a
verbatim copy of the parent metadata, the id derived from its own chunk
index, and the title-prefixed content. -/
theorem chunk_document_fields (d : SpecDocument) (m : Nat) :
    ∀ c ∈ chunk_document d m,
      c.parent_id = d.id ∧ c.meta = d.meta ∧
        c.id = d.id ++ "___chunk_" ++ toString c.chunk_index ∧
        c.content = d.meta.title ++ "\n\n" ++ c.raw_content :=
  chunksFromKept_fields d _

/-- The chunk indices of `chunksFromKept` are contiguous from 0. -/
theorem chunksFromKept_indices (d : SpecDocument) (kept : List String) :
    (chunksFromKept d kept).map Chunk.chunk_index =
      List.range (chunksFromKept d kept).length := by
  rcases kept with _ | ⟨k, ks⟩
  · rfl
  · simp only [chunksFromKept, List.map_map, List.length_map]
    have h1 : (Chunk.chunk_index ∘ fun p : Nat × String => chunkFromSection d p.1 p.2) =
        Prod.fst := by
      funext p
      rfl
    rw [h1, List.enum_map_fst, List.enum_length]

/-- The chunk indices of `chunk_document` are contiguous from 0. -/
theorem chunk_document_indices (d : SpecDocument) (m : Nat) :
    (chunk_document d m).map Chunk.chunk_index =
      List.range (chunk_document d m).length :=
  chunksFromKept_indices d _

/-- A document with no level-1/2 heading outside a fence yields exactly one
chunk, with index 0. -/
theorem chunk_document_no_heading (d : SpecDocument) (m : Nat)
    (h : hasHeadingOutsideFence false (pySplitLines d.content) = false) :
    (chunk_document d m).length = 1 ∧
      ∀ c ∈ chunk_document d m, c.chunk_index = 0 := by
  have hsec : sectionsOf d.content = [pySplitLines d.content] := by
    unfold sectionsOf
    rw [splitSectionsAux_no_heading _ false [] h]
    rfl
  unfold chunk_document
  rw [hsec]
  simp only [List.map_cons, List.map_nil, List.filter]
  rcases hif : decide (m ≤ (String.intercalate "\n" (pySplitLines d.content)).length) with _ | _
  · constructor
    · rfl
    · intro c hc
      simp only [chunksFromKept, List.mem_singleton] at hc
      subst hc
      rfl
  · constructor
    · rfl
    · intro c hc
      simp only [chunksFromKept, List.enum, List.enumFrom, List.map,
        List.mem_singleton] at hc
      subst hc
      rfl

/-- `takeWhile` passes over a block whose elements all satisfy the
predicate. -/
theorem takeWhile_append_all {p : Char → Bool} (xs ys : List Char)
    (h : ∀ x ∈ xs, p x = true) :
    List.takeWhile p (xs ++ ys) = xs ++ List.takeWhile p ys := by
  induction xs with
  | nil => simp
  | cons x xs ih =>
      have hx : p x = true := h x (List.mem_cons_self x xs)
      simp only [List.cons_append, List.takeWhile_cons, hx, if_pos]
      rw [ih (fun a ha => h a (List.mem_cons_of_mem x ha))]

/-- The Python suffix of a segment of the shape `stem.ext` (with a non-empty
stem and dot-free non-empty extension) is `.ext`. -/
theorem pySuffix_concat (s ext : List Char) (hs : s ≠ []) (hne : ext ≠ [])
    (hnd : '.' ∉ ext) : pySuffix (s ++ '.' :: ext) = '.' :: ext := by
  have hrev : (s ++ '.' :: ext).reverse = ext.reverse ++ '.' :: s.reverse := by
    simp
  have haft : afterLastDot (s ++ '.' :: ext) = ext := by
    unfold afterLastDot
    rw [hrev, takeWhile_append_all _ _ (by
      intro x hx
      have : x ≠ '.' := by
        intro hx2
        exact hnd (by rw [← hx2] at hnd ⊢; exact (List.mem_reverse).mp (hx2 ▸ hx))
      simp [this])]
    simp [List.takeWhile_cons]
  have hcont : (s ++ '.' :: ext).contains '.' = true := by
    simp
  unfold pySuffix
  rw [hcont, if_pos rfl, haft]
  have hlen : (s ++ '.' :: ext).length = s.length + ext.length + 1 := by
    simp
    omega
  rw [if_pos]
  constructor
  · rw [hlen]
    have := List.length_pos.mpr hs
    omega
  · exact List.length_pos.mpr hne

/-- `with_suffix` on a `stem.ext` segment replaces `.ext`. -/
theorem pyWithSuffix_concat (s ext new : List Char) (hs : s ≠ []) (hne : ext ≠ [])
    (hnd : '.' ∉ ext) : pyWithSuffix (s ++ '.' :: ext) new = s ++ new := by
  unfold pyWithSuffix
  rw [pySuffix_concat s ext hs hne hnd]
  have hlen : (s ++ '.' :: ext).length = s.length + (ext.length + 1) := by
    simp
  rw [hlen]
  have harith : s.length + (ext.length + 1) - ('.' :: ext).length = s.length := by
    simp
  rw [harith, List.take_left]

/-- A non-empty string has a non-empty character list. -/
theorem toList_ne_nil_of_ne_empty (s : String) (h : s ≠ "") : s.toList ≠ [] := by
  intro hl
  apply h
  cases s with
  | mk l =>
      simp only [String.toList] at hl
      simp only [hl]

/-- Under the default transform, a path whose last segment carries a
recognised documentation extension maps to the tail segments joined by
slashes with the extension replaced by `.html`. -/
theorem convert_path_to_url_default (first stem : String) (mid : List String)
    (ext : List Char) (hstem : stem.toList ≠ []) (hne : ext ≠ []) (hnd : '.' ∉ ext)
    (hmem : docSuffixes.contains ('.' :: ext) = true) :
    convert_path_to_url (first :: (mid ++ [stem ++ String.mk ('.' :: ext)])) true =
      String.intercalate "/" (mid ++ [stem ++ ".html"]) := by
  have h1 : (mid ++ [stem ++ String.mk ('.' :: ext)]).getLast? =
      some (stem ++ String.mk ('.' :: ext)) := List.getLast?_concat _
  have hnl : (stem ++ String.mk ('.' :: ext)).toList = stem.toList ++ '.' :: ext := by
    simp [String.toList, String.data_append]
  simp only [convert_path_to_url, if_pos, List.tail_cons, h1]
  rw [hnl, pySuffix_concat stem.toList ext hstem hne hnd, hmem, if_pos rfl]
  rw [pyWithSuffix_concat stem.toList ext _ hstem hne hnd]
  rw [List.dropLast_concat]
  have h2 : ({ data := stem.toList ++ ".html".toList } : String) = stem ++ ".html" := by
    cases stem with
    | mk l => rfl
  rw [h2]

/-- C7: `convert_path_to_url` is pure and deterministic (it is a function of
its arguments alone), and under the default transform
(`remove_first_part = true`) it strips the first path segment and replaces a
recognised documentation extension (`.md`, `.ipynb`, `.rst`, `.txt`) with
`.html`; in particular `examples/reference/widgets/Button.ipynb` maps to
`reference/widgets/Button.html` (`docs_mcp/data.py:128-169`). -/
theorem claim_C7_path_to_url :
    convert_path_to_url ["examples", "reference", "widgets", "Button.ipynb"] true =
      "reference/widgets/Button.html" ∧
    ∀ (first stem : String) (mid : List String) (ext : String),
      (ext = ".md" ∨ ext = ".ipynb" ∨ ext = ".rst" ∨ ext = ".txt") → stem ≠ "" →
      convert_path_to_url (first :: (mid ++ [stem ++ ext])) true =
        String.intercalate "/" (mid ++ [stem ++ ".html"]) := by
  constructor
  · decide
  · intro first stem mid ext hext hstem
    have hlist := toList_ne_nil_of_ne_empty stem hstem
    rcases hext with h | h | h | h <;> subst h
    · exact convert_path_to_url_default first stem mid ['m', 'd'] hlist
        (by decide) (by decide) (by decide)
    · exact convert_path_to_url_default first stem mid ['i', 'p', 'y', 'n', 'b'] hlist
        (by decide) (by decide) (by decide)
    · exact convert_path_to_url_default first stem mid ['r', 's', 't'] hlist
        (by decide) (by decide) (by decide)
    · exact convert_path_to_url_default first stem mid ['t', 'x', 't'] hlist
        (by decide) (by decide) (by decide)

/-- C7 witness: the general statement applied at a concrete path. -/
theorem claim_C7_path_to_url_witness :
    ".ipynb" = ".ipynb" ∧ "Button" ≠ "" ∧
      convert_path_to_url ["examples", "reference", "widgets", "Button" ++ ".ipynb"] true =
        String.intercalate "/" (["reference", "widgets"] ++ ["Button" ++ ".html"]) :=
  ⟨rfl, by decide,
    claim_C7_path_to_url.2 "examples" "Button" ["reference", "widgets"] ".ipynb"
      (Or.inr (Or.inl rfl)) (by decide)⟩

/-- C1: every entry staged for the vector store by a rebuild is a chunk of
one ingested document; chunks carry the parent id, contiguous indices from
0, ids of the form parent-id ++ chunk marker ++ index, and a verbatim copy
of the parent metadata; sections are produced by splitting only at
level-1/2 heading boundaries outside fenced code blocks (every non-preamble
section starts with such a heading and the sections exactly cover the
document lines); a document with no qualifying heading yields exactly one
chunk with index 0; and a document whose only other hash lines sit inside a
code fence splits only at its two real headings. -/
theorem claim_C1_chunk_entries (d : SpecDocument) (m : Nat) :
    (∀ docs st, (index_documentation_spec docs AddOutcome.ok st).live =
        docs.flatMap (fun x => chunk_document x 100)) ∧
    (∀ c ∈ chunk_document d m,
        c.parent_id = d.id ∧ c.meta = d.meta ∧
          c.id = d.id ++ "___chunk_" ++ toString c.chunk_index) ∧
    ((chunk_document d m).map Chunk.chunk_index =
        List.range (chunk_document d m).length) ∧
    ((sectionsOf d.content).flatten = pySplitLines d.content) ∧
    (∀ sec ∈ (sectionsOf d.content).tail,
        ∃ hd tl, sec = hd :: tl ∧ isHeadingLine hd = true) ∧
    (hasHeadingOutsideFence false (pySplitLines d.content) = false →
        (chunk_document d m).length = 1 ∧ ∀ c ∈ chunk_document d m, c.chunk_index = 0) ∧
    ((chunk_document docFenced 100).length = 2) := by
  refine ⟨?_, ?_, chunk_document_indices d m, ?_, ?_, chunk_document_no_heading d m, ?_⟩
  · intro docs st
    simp [index_documentation_spec, takeBackup, clearLive, bulkAdd, stageChunks]
  · intro c hc
    have h := chunk_document_fields d m c hc
    exact ⟨h.1, h.2.1, h.2.2.1⟩
  · unfold sectionsOf
    rw [splitSectionsAux_flatten]
    rfl
  · intro sec hsec
    exact splitSectionsAux_tail_heading _ false [] sec hsec
  · decide

/-- C1 witness: a concrete heading-free document produces exactly one
chunk. -/
theorem claim_C1_chunk_entries_witness :
    hasHeadingOutsideFence false (pySplitLines docNoHeadings.content) = false ∧
      (chunk_document docNoHeadings 100).length = 1 :=
  ⟨by decide, ((claim_C1_chunk_entries docNoHeadings 100).2.2.2.2.2.1 (by decide)).1⟩

/-- C2: for every pre-rebuild store state, staged batch and bulk-add
failure — whatever partial contents the failed add left behind — the
restore-from-backup path brings the live store back to exactly its
pre-rebuild contents and count (never empty, never partially written), even
though the live store was emptied in between by the clear step. -/
theorem claim_C2_restore_on_failure (st : StoreDirs) (docs : List SpecDocument)
    (leftover : List Chunk) :
    ((index_documentation_spec docs (AddOutcome.fail leftover) st).live = st.live) ∧
    ((index_documentation_spec docs (AddOutcome.fail leftover) st).live.length =
        st.live.length) ∧
    ((clearLive (takeBackup st)).live = []) := by
  refine ⟨?_, ?_, rfl⟩ <;>
    simp [index_documentation_spec, takeBackup, clearLive, bulkAdd, restore_from_backup]

/-- The documents gathered by the ingestion loop are exactly those of the
repositories whose clone-or-update succeeded, in configuration order. -/
theorem gather_docs_eq (cloneResult : String → Except String String)
    (extract : String → List DocRecord) :
    ∀ repos : List String,
      (gather_docs cloneResult extract repos).2 =
        (repos.filterMap (fun r => (cloneResult r).toOption)).flatMap extract := by
  intro repos
  induction repos with
  | nil => rfl
  | cons r rest ih =>
      simp only [gather_docs, clone_or_update_repo, List.filterMap_cons]
      rcases h : cloneResult r with e | p
      · simp [h, ih, Except.toOption]
      · simp [h, ih, Except.toOption]

/-- Every clone failure leaves its warning in the gathered log. -/
theorem gather_docs_log (cloneResult : String → Except String String)
    (extract : String → List DocRecord) :
    ∀ (repos : List String) (r e : String), r ∈ repos → cloneResult r = .error e →
      ("Failed to clone/update " ++ r ++ ": " ++ e) ∈ (gather_docs cloneResult extract repos).1 := by
  intro repos
  induction repos with
  | nil => intro r e h; simp at h
  | cons r0 rest ih =>
      intro r e hmem herr
      rcases List.mem_cons.mp hmem with h | h
      · subst h
        simp only [gather_docs, clone_or_update_repo, herr]
        exact List.mem_append_left _ (List.mem_singleton_self _)
      · have htail := ih r e h herr
        simp only [gather_docs, clone_or_update_repo]
        rcases hc : cloneResult r0 with e0 | p0
        · exact List.mem_append_right _ htail
        · exact List.mem_append_right _ htail

/-- C8: a repository whose clone-or-update fails is logged and skipped while
the run continues: the whole `index_documentation` run behaves exactly as if
only the successfully cloned repositories were configured (same resulting
store and same error outcome), and each failure leaves its warning in the
log — a clone failure never aborts the run. -/
theorem claim_C8_clone_failure_skipped (cloneResult : String → Except String String)
    (extract : String → List DocRecord) (repos : List String)
    (store : List DocRecord) :
    ((index_documentation cloneResult extract repos store).2 =
      (index_documentation_core store
        ((repos.filterMap (fun r => (cloneResult r).toOption)).flatMap extract)).2) ∧
    (∀ r e, r ∈ repos → cloneResult r = .error e →
      ("Failed to clone/update " ++ r ++ ": " ++ e) ∈
        (index_documentation cloneResult extract repos store).1) := by
  constructor
  · simp only [index_documentation]
    rw [gather_docs_eq]
  · intro r e hmem herr
    simp only [index_documentation]
    exact List.mem_append_left _ (gather_docs_log cloneResult extract repos r e hmem herr)

/-- C8 witness: a concrete run with one failing repository keeps the other
repository's documents and logs the failure. -/
theorem claim_C8_clone_failure_skipped_witness :
    "bad" ∈ ["panel", "bad"] ∧ cloneOracleFx "bad" = .error "boom" ∧
      ("Failed to clone/update bad: boom") ∈
        (index_documentation cloneOracleFx extractFx ["panel", "bad"] []).1 :=
  ⟨by decide, rfl,
    (claim_C8_clone_failure_skipped cloneOracleFx extractFx ["panel", "bad"] []).2
      "bad" "boom" (by decide) rfl⟩

/-- The duplicate scan distributes over batch concatenation, threading the
`seen_ids` association. -/
theorem dupScan_append (l1 : List DocRecord) :
    ∀ (seen : List (String × DocRecord)) (ds : List DocRecord),
      dupScan seen (l1 ++ ds) =
        ((dupScan seen l1).1 ++ (dupScan (seenAfter seen l1) ds).1,
          (dupScan seen l1).2 + (dupScan (seenAfter seen l1) ds).2) := by
  induction l1 with
  | nil => intro seen ds; simp [dupScan, seenAfter]
  | cons d rest ih =>
      intro seen ds
      cases h : seen.lookup d.id with
      | none =>
          simp only [List.cons_append, dupScan, seenAfter, h, List.append_eq]
          rw [ih]
      | some firstDoc =>
          simp only [List.cons_append, dupScan, seenAfter, h, List.append_eq]
          rw [ih]
          simp only [Prod.mk.injEq, List.cons_append, List.append_assoc]
          exact ⟨by trivial, by omega⟩

/-- Scanning records whose ids differ from `i` does not change what `i`
resolves to in `seen_ids`. -/
theorem lookup_seenAfter (i : String) :
    ∀ (l : List DocRecord) (seen : List (String × DocRecord)),
      (∀ x ∈ l, x.id ≠ i) →
      List.lookup i (seenAfter seen l) = List.lookup i seen := by
  intro l
  induction l with
  | nil => intro seen _; rfl
  | cons d rest ih =>
      intro seen hfresh
      simp only [seenAfter]
      rcases h : seen.lookup d.id with _ | firstDoc
      · rw [ih _ (fun x hx => hfresh x (List.mem_cons_of_mem d hx))]
        rw [List.lookup_cons]
        have hne : (i == d.id) = false := by
          have := hfresh d (List.mem_cons_self d rest)
          simp [BEq.symm_false]
          exact fun hh => (this hh.symm).elim
        simp only [hne]
      · exact ih _ (fun x hx => hfresh x (List.mem_cons_of_mem d hx))

/-- When a scanned record's id already resolves in `seen_ids`, the scan
emits the first-document and duplicate-document warnings naming project and
path of both sides, and counts at least one duplicate. -/
theorem dupScan_mem_of_lookup (d2 d1 : DocRecord) :
    ∀ (ds : List DocRecord) (seen : List (String × DocRecord)),
      d2 ∈ ds → List.lookup d2.id seen = some d1 →
      (("  First document: " ++ d1.project ++ "/" ++ d1.path ++ " - " ++ d1.title)
          ∈ (dupScan seen ds).1 ∧
        ("  Duplicate document: " ++ d2.project ++ "/" ++ d2.path ++ " - " ++ d2.title)
          ∈ (dupScan seen ds).1 ∧
        0 < (dupScan seen ds).2) := by
  intro ds
  induction ds with
  | nil => intro seen h; simp at h
  | cons d rest ih =>
      intro seen hmem hlk
      rcases List.mem_cons.mp hmem with h | h
      · subst h
        simp only [dupScan, hlk]
        refine ⟨?_, ?_, ?_⟩
        · exact List.mem_cons_of_mem _ (List.mem_cons_self _ _)
        · exact List.mem_cons_of_mem _ (List.mem_cons_of_mem _ (List.mem_cons_self _ _))
        · omega
      · cases hd : seen.lookup d.id with
        | none =>
            have hne : (d2.id == d.id) = false := by
              rcases hbe : d2.id == d.id with _ | _
              · rfl
              · exfalso
                have heq : d2.id = d.id := beq_iff_eq.mp hbe
                rw [heq, hd] at hlk
                exact Option.noConfusion hlk
            have hlk2 : List.lookup d2.id ((d.id, d) :: seen) = some d1 := by
              rw [List.lookup_cons]
              simp only [hne]
              exact hlk
            simp only [dupScan, hd]
            exact ih ((d.id, d) :: seen) h hlk2
        | some firstDoc =>
            have hrec := ih seen h hlk
            simp only [dupScan, hd]
            refine ⟨?_, ?_, ?_⟩
            · exact List.mem_cons_of_mem _ (List.mem_cons_of_mem _
                (List.mem_cons_of_mem _ hrec.1))
            · exact List.mem_cons_of_mem _ (List.mem_cons_of_mem _
                (List.mem_cons_of_mem _ hrec.2.1))
            · omega

/-- C3 (amended): a batch containing two documents with the same id makes
`index_documentation` abort before any store mutation — the store is left
unchanged — raising an error that reports only the duplicate count, while
the warning log enumerates each colliding pair with project and path of
both sides. -/
theorem claim_C3_duplicate_abort (store l1 l2 : List DocRecord) (d1 d2 : DocRecord)
    (hmem : d2 ∈ l2) (hid : d2.id = d1.id) (hfresh : ∀ x ∈ l1, x.id ≠ d1.id) :
    ((index_documentation_core store (l1 ++ d1 :: l2)).2.1 = store) ∧
    (∃ n, 0 < n ∧ (index_documentation_core store (l1 ++ d1 :: l2)).2.2 =
        some (.exception ("Found " ++ toString n ++ " duplicate document IDs"))) ∧
    (("  First document: " ++ d1.project ++ "/" ++ d1.path ++ " - " ++ d1.title)
        ∈ (index_documentation_core store (l1 ++ d1 :: l2)).1) ∧
    (("  Duplicate document: " ++ d2.project ++ "/" ++ d2.path ++ " - " ++ d2.title)
        ∈ (index_documentation_core store (l1 ++ d1 :: l2)).1) := by
  have hseen1 : List.lookup d1.id (seenAfter [] l1) = none := by
    rw [lookup_seenAfter d1.id l1 [] hfresh]
    rfl
  have hstep : dupScan (seenAfter [] l1) (d1 :: l2) =
      dupScan ((d1.id, d1) :: seenAfter [] l1) l2 := by
    simp only [dupScan, hseen1]
  have hlk2 : List.lookup d2.id ((d1.id, d1) :: seenAfter [] l1) = some d1 := by
    rw [List.lookup_cons]
    have hbe : (d2.id == d1.id) = true := beq_iff_eq.mpr hid
    simp only [hbe]
  have hmain := dupScan_mem_of_lookup d2 d1 l2 ((d1.id, d1) :: seenAfter [] l1) hmem hlk2
  have hsplit := dupScan_append l1 [] (d1 :: l2)
  have hcount : 0 < (dupScan [] (l1 ++ d1 :: l2)).2 := by
    rw [hsplit]
    simp only [hstep]
    omega
  have hlog1 : ("  First document: " ++ d1.project ++ "/" ++ d1.path ++ " - " ++ d1.title)
      ∈ (dupScan [] (l1 ++ d1 :: l2)).1 := by
    rw [hsplit]
    exact List.mem_append_right _ (by rw [hstep]; exact hmain.1)
  have hlog2 : ("  Duplicate document: " ++ d2.project ++ "/" ++ d2.path ++ " - " ++ d2.title)
      ∈ (dupScan [] (l1 ++ d1 :: l2)).1 := by
    rw [hsplit]
    exact List.mem_append_right _ (by rw [hstep]; exact hmain.2.1)
  have hval2 : (validate_unique_ids (l1 ++ d1 :: l2)).2 =
      some (.exception ("Found " ++ toString (dupScan [] (l1 ++ d1 :: l2)).2
        ++ " duplicate document IDs")) := by
    unfold validate_unique_ids
    rw [if_pos hcount]
  have hval1 : (validate_unique_ids (l1 ++ d1 :: l2)).1 = (dupScan [] (l1 ++ d1 :: l2)).1 := by
    unfold validate_unique_ids
    rw [if_pos hcount]
  have hempty : (l1 ++ d1 :: l2).isEmpty = false := by
    rcases l1 with _ | ⟨a, as⟩ <;> rfl
  have hcore : index_documentation_core store (l1 ++ d1 :: l2) =
      ((validate_unique_ids (l1 ++ d1 :: l2)).1, store,
        some (.exception ("Found " ++ toString (dupScan [] (l1 ++ d1 :: l2)).2
          ++ " duplicate document IDs"))) := by
    unfold index_documentation_core
    rw [hempty]
    simp only [Bool.false_eq_true, if_neg, hval2]
    simp
  rw [hcore]
  refine ⟨rfl, ⟨(dupScan [] (l1 ++ d1 :: l2)).2, hcount, rfl⟩, ?_, ?_⟩
  · rw [hval1]
    exact hlog1
  · rw [hval1]
    exact hlog2

/-- C3 counterexample: for a concrete colliding batch the run aborts with
the existing store untouched, but the raised error message carries only the
duplicate count: it names neither the colliding path nor the project, so
the error does not enumerate the colliding pairs. -/
theorem claim_C3_duplicate_abort_counterexample :
    (index_documentation_core [recHvplotIndex] [recPanelIndex, recPanelIndexDup]).2.2 =
        some (.exception "Found 1 duplicate document IDs") ∧
    (index_documentation_core [recHvplotIndex] [recPanelIndex, recPanelIndexDup]).2.1 =
        [recHvplotIndex] ∧
    ¬ ("doc/index.md".toList <:+: "Found 1 duplicate document IDs".toList) ∧
    ¬ ("panel".toList <:+: "Found 1 duplicate document IDs".toList) := by
  refine ⟨by decide, by decide, by decide, by decide⟩

/-- C3 witness: the amended statement applied to a concrete batch with one
collision. -/
theorem claim_C3_duplicate_abort_witness :
    recPanelIndexDup ∈ [recPanelIndexDup] ∧ recPanelIndexDup.id = recPanelIndex.id ∧
      ("  Duplicate document: " ++ recPanelIndexDup.project ++ "/" ++ recPanelIndexDup.path
          ++ " - " ++ recPanelIndexDup.title)
        ∈ (index_documentation_core [recHvplotIndex]
            ([] ++ recPanelIndex :: [recPanelIndexDup])).1 :=
  ⟨List.mem_singleton_self _, by decide,
    (claim_C3_duplicate_abort [recHvplotIndex] [] [recPanelIndexDup] recPanelIndex
      recPanelIndexDup (List.mem_singleton_self _) (by decide)
      (fun x hx => absurd hx (List.not_mem_nil x))).2.2.2⟩

/-- A populated store makes `ensure_indexed` a no-op. -/
theorem ensure_indexed_of_ne_nil (ix : Indexer) (hne : ix.store ≠ []) :
    ensure_indexed ix = .ok ix := by
  unfold ensure_indexed is_indexed
  rw [if_pos]
  exact decide_eq_true (List.length_pos.mpr hne)

/-- C4 (amended): on a store produced by a successful index run (pairwise
distinct derived ids), no two entries returned by one `search_pages` call
share the same (project, path) pair; the bare path alone can repeat across
projects, since `search_pages` performs no per-source deduplication. -/
theorem claim_C4_no_duplicate_pairs (ix : Indexer) (hne : ix.store ≠ [])
    (hval : StoreValid ix.store) (queryRaises : Bool) (q : String)
    (pf : Option String) (c : Bool) (m : Nat) (dist : DocRecord → Option ℚ)
    (pages : List Page)
    (hp : search_pages ix queryRaises q pf c m dist = .ok pages) :
    pages.Pairwise (fun a b => ¬ (a.project = b.project ∧ a.path = b.path)) := by
  unfold search_pages at hp
  rw [ensure_indexed_of_ne_nil ix hne] at hp
  cases queryRaises with
  | true =>
      simp only [if_pos, Except.ok.injEq] at hp
      subst hp
      exact List.Pairwise.nil
  | false =>
      simp only [Bool.false_eq_true, if_neg, Except.ok.injEq, not_false_eq_true] at hp
      subst hp
      have hsub : (queryStore ix.store (whereSearch pf) m).Sublist ix.store :=
        (List.take_sublist _ _).trans (List.filter_sublist _)
      have hids : (queryStore ix.store (whereSearch pf) m).Pairwise
          (fun a b => a.id ≠ b.id) := List.Pairwise.sublist hsub hval.1
      rw [List.pairwise_map]
      refine List.Pairwise.imp_of_mem ?_ hids
      intro e1 e2 h1 h2 hne12 hcon
      apply hne12
      have hid1 := hval.2 e1 (hsub.subset h1)
      have hid2 := hval.2 e2 (hsub.subset h2)
      rw [hid1, hid2]
      have hproj : e1.project = e2.project := hcon.1
      have hpath : e1.path = e2.path := hcon.2
      rw [hproj, hpath]

/-- C4 counterexample: with two projects holding the same relative path, one
`search_pages` call returns two entries with the same source path. -/
theorem claim_C4_no_duplicate_pairs_counterexample :
    search_pages ixTwoProjects false "intro" none true 5 (fun _ => none) =
      .ok [mkSearchPage true (fun _ => none) recPanelIndex,
        mkSearchPage true (fun _ => none) recHvplotIndex] ∧
    (mkSearchPage true (fun _ => none) recPanelIndex).path =
      (mkSearchPage true (fun _ => none) recHvplotIndex).path ∧
    (mkSearchPage true (fun _ => none) recPanelIndex).project ≠
      (mkSearchPage true (fun _ => none) recHvplotIndex).project := by
  refine ⟨rfl, rfl, by decide⟩

/-- C4 witness: the amended statement applied to a concrete two-project
store. -/
theorem claim_C4_no_duplicate_pairs_witness :
    ixTwoProjects.store ≠ [] ∧
      List.Pairwise (fun a b => ¬ (a.project = b.project ∧ a.path = b.path))
        [mkSearchPage true (fun _ => none) recPanelIndex,
          mkSearchPage true (fun _ => none) recHvplotIndex] :=
  ⟨by decide,
    claim_C4_no_duplicate_pairs ixTwoProjects (by decide) ⟨by decide, by decide⟩
      false "intro" none true 5 (fun _ => none) _ rfl⟩

/-- On entries that satisfy the reference-guide filter, the assembly loop
never trips its defensive re-checks: it returns one page per entry. -/
theorem buildRefPages_ok (component : String) (pf : Option String) (c : Bool) :
    ∀ es : List DocRecord, (∀ e ∈ es, whereRefGuide component pf e = true) →
      buildRefPages component pf c es = .ok (es.map (refGuidePage c)) := by
  intro es
  induction es with
  | nil => intro _; rfl
  | cons e rest ih =>
      intro hall
      have he := hall e (List.mem_cons_self e rest)
      have hrest := ih (fun x hx => hall x (List.mem_cons_of_mem e hx))
      unfold whereRefGuide at he
      cases pf with
      | none =>
          simp only [Bool.and_eq_true, beq_iff_eq, Bool.true_and] at he
          simp only [buildRefPages]
          rw [if_neg (fun hcon => hcon he.1)]
          rw [hrest]
          rfl
      | some p =>
          simp only [Bool.and_eq_true, beq_iff_eq] at he
          simp only [buildRefPages]
          rw [if_neg (fun hcon => hcon he.1.1)]
          rw [if_neg (fun hcon => hcon he.1.2)]
          rw [hrest]
          rfl

/-- C5: on a populated store (with at most 1000 matching entries, the
query's `n_results` cap), `search_get_reference_guide` returns exactly the
stored documents flagged `is_reference` whose `path_stem` equals the
component case-sensitively, restricted to the project when one is given;
each returned page carries the fixed maximal relevance score 1 and the
reference flag; when nothing matches it returns the empty list and never
raises a not-found error. -/
theorem claim_C5_reference_guide (ix : Indexer) (component : String)
    (pf : Option String) (c : Bool) (hne : ix.store ≠ [])
    (hcount : (ix.store.filter (whereRefGuide component pf)).length ≤ 1000) :
    (search_get_reference_guide ix component pf c =
      .ok ((ix.store.filter (whereRefGuide component pf)).map (refGuidePage c))) ∧
    (∀ pg ∈ (ix.store.filter (whereRefGuide component pf)).map (refGuidePage c),
        pg.relevance_score = some 1 ∧ pg.is_reference = true) ∧
    (ix.store.filter (whereRefGuide component pf) = [] →
      search_get_reference_guide ix component pf c = .ok []) := by
  have hmain : search_get_reference_guide ix component pf c =
      .ok ((ix.store.filter (whereRefGuide component pf)).map (refGuidePage c)) := by
    unfold search_get_reference_guide
    rw [ensure_indexed_of_ne_nil ix hne]
    show buildRefPages component pf c
        (queryStore ix.store (whereRefGuide component pf) 1000) = _
    unfold queryStore
    rw [List.take_of_length_le hcount]
    exact buildRefPages_ok component pf c _ (fun e he => List.of_mem_filter he)
  refine ⟨hmain, ?_, ?_⟩
  · intro pg hpg
    rcases List.mem_map.mp hpg with ⟨e, he, hpe⟩
    subst hpe
    have hw := List.of_mem_filter he
    unfold whereRefGuide at hw
    constructor
    · rfl
    · show e.is_reference = true
      cases pf with
      | none => simp only [Bool.and_eq_true] at hw; exact hw.2
      | some p => simp only [Bool.and_eq_true] at hw; exact hw.2
  · intro hempty
    rw [hmain, hempty]
    rfl

/-- C5 witness: the statement applied to a concrete store with one matching
reference guide. -/
theorem claim_C5_reference_guide_witness :
    ixRef.store ≠ [] ∧
      search_get_reference_guide ixRef "Button" (some "panel") true =
        .ok ((ixRef.store.filter (whereRefGuide "Button" (some "panel"))).map
          (refGuidePage true)) :=
  ⟨by decide,
    (claim_C5_reference_guide ixRef "Button" (some "panel") true (by decide)
      (by decide)).1⟩

/-- C6: on a populated store, `get_page` raises the not-found `ValueError`
when zero stored entries match the (project, path) filter, raises the
ambiguous-match `ValueError` when the filter yields more than one match,
and otherwise returns the single matching page. -/
theorem claim_C6_get_page (ix : Indexer) (path project : String)
    (dist : DocRecord → Option ℚ) (hne : ix.store ≠ []) :
    ((ix.store.filter (whereGetPage project path) = [] →
        get_page ix path project dist = .error (.valueError (noPageMsg path project))) ∧
      (1 < (ix.store.filter (whereGetPage project path)).length →
        get_page ix path project dist = .error (.valueError (multiPageMsg path project))) ∧
      (∀ e, ix.store.filter (whereGetPage project path) = [e] →
        get_page ix path project dist = .ok (getPagePage dist e))) := by
  have hgp : get_page ix path project dist =
      getPageFrom path project
        ((queryStore ix.store (whereGetPage project path) 3).map (getPagePage dist)) := by
    unfold get_page
    rw [ensure_indexed_of_ne_nil ix hne]
  refine ⟨?_, ?_, ?_⟩
  · intro hf
    rw [hgp]
    unfold queryStore
    rw [hf]
    rfl
  · intro hlen
    rw [hgp]
    unfold queryStore
    rcases hf : ix.store.filter (whereGetPage project path) with _ | ⟨a, _ | ⟨b, t⟩⟩
    · rw [hf] at hlen; simp at hlen
    · rw [hf] at hlen; simp at hlen
    · simp only [List.take, List.map]
      rfl
  · intro e hf
    rw [hgp]
    unfold queryStore
    rw [hf]
    rfl

/-- C6 witness: the statement applied to a concrete store with exactly one
matching page. -/
theorem claim_C6_get_page_witness :
    ixRef.store.filter (whereGetPage "panel" "doc/index.md") = [recPanelIndex] ∧
      get_page ixRef "doc/index.md" "panel" (fun _ => none) =
        .ok (getPagePage (fun _ => none) recPanelIndex) :=
  ⟨by decide,
    (claim_C6_get_page ixRef "doc/index.md" "panel" (fun _ => none) (by decide)).2.2
      recPanelIndex (by decide)⟩

/-- C9 (amended): on a populated store, `list_projects` returns the
distinct set of the non-empty `project` metadata values with underscores
replaced by hyphens, sorted ascending — not the raw stored values. -/
theorem claim_C9_list_projects (ix : Indexer) (hne : ix.store ≠ []) :
    (list_projects ix = .ok (projectNames ix.store)) ∧
    List.Sorted (· ≤ ·) (projectNames ix.store) ∧
    (projectNames ix.store).Nodup ∧
    (∀ s, s ∈ projectNames ix.store ↔
        ∃ e ∈ ix.store, e.project ≠ "" ∧ s = pyReplace e.project '_' "-") := by
  have hperm := List.perm_insertionSort (α := String) (· ≤ ·)
    ((ix.store.filterMap
      (fun e => if e.project = "" then none else some (pyReplace e.project '_' "-"))).dedup)
  refine ⟨?_, ?_, ?_, ?_⟩
  · unfold list_projects
    rw [ensure_indexed_of_ne_nil ix hne]
  · exact List.sorted_insertionSort _ _
  · exact hperm.symm.nodup (List.nodup_dedup _)
  · intro s
    rw [show (s ∈ projectNames ix.store) =
        (s ∈ (ix.store.filterMap (fun e =>
          if e.project = "" then none else some (pyReplace e.project '_' "-"))).dedup)
      from propext hperm.mem_iff]
    rw [List.mem_dedup, List.mem_filterMap]
    constructor
    · rintro ⟨e, he, hf⟩
      by_cases hp : e.project = ""
      · rw [if_pos hp] at hf
        exact Option.noConfusion hf
      · rw [if_neg hp] at hf
        exact ⟨e, he, hp, (Option.some.injEq _ _ ▸ hf).symm⟩
    · rintro ⟨e, he, hp, hs⟩
      exact ⟨e, he, by rw [if_neg hp, hs]⟩

/-- C9 counterexample: a store whose only project value is
`panel_material_ui` yields `panel-material-ui` — the returned list is not
the set of stored project values. -/
theorem claim_C9_list_projects_counterexample :
    list_projects ixPmui = .ok ["panel-material-ui"] ∧
    ixPmui.store.map DocRecord.project = ["panel_material_ui"] ∧
    (["panel-material-ui"] : List String) ≠ ["panel_material_ui"] := by
  refine ⟨rfl, rfl, by decide⟩

/-- C9 witness: the amended statement applied to a concrete store. -/
theorem claim_C9_list_projects_witness :
    ixPmui.store ≠ [] ∧ list_projects ixPmui = .ok (projectNames ixPmui.store) :=
  ⟨by decide, (claim_C9_list_projects ixPmui (by decide)).1⟩

/-- C10 (amended): once the store is populated, `search_pages` never
returns an error — in particular a raising vector-store query inside its
`try` block is swallowed and the empty list returned; but `ensure_indexed`
runs before the `try` block, so an on-demand indexing failure still
propagates (see the counterexample). -/
theorem claim_C10_search_swallows (ix : Indexer) (queryRaises : Bool) (q : String)
    (pf : Option String) (c : Bool) (m : Nat) (dist : DocRecord → Option ℚ)
    (hne : ix.store ≠ []) :
    (∃ pages, search_pages ix queryRaises q pf c m dist = .ok pages) ∧
    (queryRaises = true → search_pages ix queryRaises q pf c m dist = .ok []) := by
  have hsp : search_pages ix queryRaises q pf c m dist =
      if queryRaises then .ok []
      else .ok ((queryStore ix.store (whereSearch pf) m).map (mkSearchPage c dist)) := by
    unfold search_pages
    rw [ensure_indexed_of_ne_nil ix hne]
  cases queryRaises with
  | true => exact ⟨⟨[], by rw [hsp]; rfl⟩, fun _ => by rw [hsp]; rfl⟩
  | false =>
      refine ⟨⟨(queryStore ix.store (whereSearch pf) m).map (mkSearchPage c dist),
        by rw [hsp]; rfl⟩, fun hcon => Bool.noConfusion hcon⟩

/-- C10 counterexample: with an empty store and a pending batch containing
an id collision, the on-demand indexing run by `ensure_indexed` raises
before the `try` block, and `search_pages` propagates the exception instead
of returning the empty list. -/
theorem claim_C10_search_swallows_counterexample :
    search_pages ixDup false "q" none true 5 (fun _ => none) =
      .error (.exception "Found 1 duplicate document IDs") := rfl

/-- C10 witness: the amended statement applied to a populated store with a
raising query. -/
theorem claim_C10_search_swallows_witness :
    ixRef.store ≠ [] ∧
      search_pages ixRef true "q" none true 5 (fun _ => none) = .ok [] :=
  ⟨by decide,
    (claim_C10_search_swallows ixRef true "q" none true 5 (fun _ => none)
      (by decide)).2 rfl⟩

end HoloViz
